import Mathlib

/-
  Verification of the sphere-scene ray tracer fragment shader
  (IntersectRay, Shade, RayTracer) of this repository.

  The GLSL code is embedded shallowly over the real numbers:
  vec3 becomes a record of three reals, float arithmetic becomes real
  arithmetic, sqrt becomes Real.sqrt and pow becomes Real.rpow.
  The inout HitInfo parameter of IntersectRay is modelled by passing the
  incoming record explicitly and returning the updated one next to the
  boolean result.  The compile-time constants NUM_SPHERES, NUM_LIGHTS and
  MAX_BOUNCES are modelled by the lengths of the sphere and light lists and
  by an explicit maxBounces field of the scene, since the renderer that
  instantiates them is not part of the given sources.
-/

namespace RT

/-- Three-component vector of reals, modelling GLSL vec3 (also used for
RGB colors). -/
@[ext]
structure Vec3 where
  x : ℝ
  y : ℝ
  z : ℝ

noncomputable instance : Add Vec3 := ⟨fun u v => ⟨u.x + v.x, u.y + v.y, u.z + v.z⟩⟩

noncomputable instance : Sub Vec3 := ⟨fun u v => ⟨u.x - v.x, u.y - v.y, u.z - v.z⟩⟩

noncomputable instance : Neg Vec3 := ⟨fun v => ⟨-v.x, -v.y, -v.z⟩⟩

noncomputable instance : Mul Vec3 := ⟨fun u v => ⟨u.x * v.x, u.y * v.y, u.z * v.z⟩⟩

noncomputable instance : SMul ℝ Vec3 := ⟨fun a v => ⟨a * v.x, a * v.y, a * v.z⟩⟩

instance : Zero Vec3 := ⟨⟨0, 0, 0⟩⟩

@[simp] theorem Vec3.add_x (u v : Vec3) : (u + v).x = u.x + v.x := rfl

@[simp] theorem Vec3.add_y (u v : Vec3) : (u + v).y = u.y + v.y := rfl

@[simp] theorem Vec3.add_z (u v : Vec3) : (u + v).z = u.z + v.z := rfl

@[simp] theorem Vec3.sub_x (u v : Vec3) : (u - v).x = u.x - v.x := rfl

@[simp] theorem Vec3.sub_y (u v : Vec3) : (u - v).y = u.y - v.y := rfl

@[simp] theorem Vec3.sub_z (u v : Vec3) : (u - v).z = u.z - v.z := rfl

@[simp] theorem Vec3.neg_x (v : Vec3) : (-v).x = -v.x := rfl

@[simp] theorem Vec3.neg_y (v : Vec3) : (-v).y = -v.y := rfl

@[simp] theorem Vec3.neg_z (v : Vec3) : (-v).z = -v.z := rfl

@[simp] theorem Vec3.mul_x (u v : Vec3) : (u * v).x = u.x * v.x := rfl

@[simp] theorem Vec3.mul_y (u v : Vec3) : (u * v).y = u.y * v.y := rfl

@[simp] theorem Vec3.mul_z (u v : Vec3) : (u * v).z = u.z * v.z := rfl

@[simp] theorem Vec3.smul_x (a : ℝ) (v : Vec3) : (a • v).x = a * v.x := rfl

@[simp] theorem Vec3.smul_y (a : ℝ) (v : Vec3) : (a • v).y = a * v.y := rfl

@[simp] theorem Vec3.smul_z (a : ℝ) (v : Vec3) : (a • v).z = a * v.z := rfl

@[simp] theorem Vec3.zero_x : (0 : Vec3).x = 0 := rfl

@[simp] theorem Vec3.zero_y : (0 : Vec3).y = 0 := rfl

@[simp] theorem Vec3.zero_z : (0 : Vec3).z = 0 := rfl

/-- GLSL dot product on vec3. -/
noncomputable def dot (u v : Vec3) : ℝ := u.x * v.x + u.y * v.y + u.z * v.z

/-- GLSL length of a vec3. -/
noncomputable def length (v : Vec3) : ℝ := Real.sqrt (dot v v)

/-- GLSL normalize: the vector divided by its length. -/
noncomputable def normalize (v : Vec3) : Vec3 := (1 / length v) • v

/-- GLSL reflect(I, N) = I - 2 * dot(N, I) * N, the mirror reflection of an
incident direction about a normal. -/
noncomputable def reflect (i nrm : Vec3) : Vec3 := i - (2 * dot nrm i) • nrm

/-- The .xzy swizzle used when the shader samples the cube map. -/
def xzy (v : Vec3) : Vec3 := ⟨v.x, v.z, v.y⟩

/-- GLSL pow on floats, modelled as the real power function (sources: the
specular term of Shade).  Note Real.rpow 0 0 = 1. -/
noncomputable def glslPow (x y : ℝ) : ℝ := Real.rpow x y

/-- Material of the shader: diffuse coefficient, specular coefficient and
specular exponent. -/
structure Material where
  k_d : Vec3
  k_s : Vec3
  n : ℝ

/-- Sphere of the scene: center, radius and material. -/
structure Sphere where
  center : Vec3
  radius : ℝ
  mtl : Material

/-- Point light of the scene: position and RGB intensity. -/
structure Light where
  position : Vec3
  intensity : Vec3

/-- Hit record of the intersection routine: distance along the ray, world
position, surface normal and the material copied from the hit sphere. -/
structure HitInfo where
  t : ℝ
  position : Vec3
  normal : Vec3
  mtl : Material

/-- Ray: origin and direction. -/
structure Ray where
  pos : Vec3
  dir : Vec3

/-- Scene-wide configuration of the shader: the sphere and light uniforms,
the environment cube map (modelled as a direction-indexed color), the
bounceLimit uniform int, and the MAX_BOUNCES compile-time cap. -/
structure Scene where
  spheres : List Sphere
  lights : List Light
  envMap : Vec3 → Vec3
  bounceLimit : ℤ
  maxBounces : ℕ

/-- Value standing for a GLSL local HitInfo variable that is declared but
not initialized.  Whenever the shader reads a field of such a variable the
field has previously been written, so the result never depends on this
record; it only closes the embedding. -/
def uninitHit : HitInfo := ⟨0, ⟨0, 0, 0⟩, ⟨0, 0, 0⟩, ⟨⟨0, 0, 0⟩, ⟨0, 0, 0⟩, 0⟩⟩

/-- Source line 81: the intersection routine first sets hit.t to the
sentinel 1e30, leaving the other fields of the incoming record alone. -/
noncomputable def setSentinel (h : HitInfo) : HitInfo :=
  ⟨1e30, h.position, h.normal, h.mtl⟩

/-- Quadratic coefficient a = dot(ray.dir, ray.dir) (source line 88). -/
noncomputable def aCoef (ray : Ray) : ℝ := dot ray.dir ray.dir

/-- Quadratic coefficient b = 2 * dot(oc, ray.dir) with
oc = ray.pos - center (source lines 87 and 89). -/
noncomputable def bCoef (ray : Ray) (s : Sphere) : ℝ :=
  2 * dot (ray.pos - s.center) ray.dir

/-- Quadratic coefficient c = dot(oc, oc) - radius * radius
(source line 90). -/
noncomputable def cCoef (ray : Ray) (s : Sphere) : ℝ :=
  dot (ray.pos - s.center) (ray.pos - s.center) - s.radius * s.radius

/-- Discriminant b * b - 4 * a * c of the ray-sphere quadratic
(source line 92). -/
noncomputable def discrim (ray : Ray) (s : Sphere) : ℝ :=
  bCoef ray s * bCoef ray s - 4 * aCoef ray * cCoef ray s

/-- Near root t1 = (-b - sqrt(discriminant)) / (2 a) (source line 97). -/
noncomputable def tNear (ray : Ray) (s : Sphere) : ℝ :=
  (-bCoef ray s - Real.sqrt (discrim ray s)) / (2 * aCoef ray)

/-- Far root t2 = (-b + sqrt(discriminant)) / (2 a) (source line 98). -/
noncomputable def tFar (ray : Ray) (s : Sphere) : ℝ :=
  (-bCoef ray s + Real.sqrt (discrim ray s)) / (2 * aCoef ray)

/-- Per-sphere candidate t = (t1 > 0) ? t1 : t2 (source line 101). -/
noncomputable def candT (ray : Ray) (s : Sphere) : ℝ :=
  if 0 < tNear ray s then tNear ray s else tFar ray s

/-- HitInfo written on acceptance of a candidate (source lines 105-108). -/
noncomputable def hitRecord (ray : Ray) (s : Sphere) (t : ℝ) : HitInfo :=
  ⟨t, ray.pos + t • ray.dir,
   normalize ((ray.pos + t • ray.dir) - s.center), s.mtl⟩

/-- Body of the sphere loop of IntersectRay (source lines 87-111): test the
ray against one sphere and update the accumulated (hit, foundHit) state
when the candidate is positive and strictly closer than the current best. -/
noncomputable def intersectStep (ray : Ray) (acc : HitInfo × Bool) (s : Sphere) :
    HitInfo × Bool :=
  if 0 ≤ discrim ray s then
    if 0 < candT ray s ∧ candT ray s < acc.1.t then
      (hitRecord ray s (candT ray s), true)
    else acc
  else acc

/-- IntersectRay (source lines 79-114): set hit.t to the sentinel, scan all
spheres in order, and return whether any intersection was found together
with the updated HitInfo (the inout parameter of the GLSL code). -/
noncomputable def IntersectRay (spheres : List Sphere) (hit : HitInfo) (ray : Ray) :
    Bool × HitInfo :=
  ((spheres.foldl (intersectStep ray) (setSentinel hit, false)).2,
   (spheres.foldl (intersectStep ray) (setSentinel hit, false)).1)

/-- The candidate distance IntersectRay tests for one sphere: present
exactly when the discriminant is nonnegative, and then equal to candT. -/
noncomputable def sphereCandidate (ray : Ray) (s : Sphere) : Option ℝ :=
  if 0 ≤ discrim ray s then some (candT ray s) else none

/-- Shadow ray constructed for one light (source lines 46-48): origin
offset by 0.001 along the normal, direction toward the light. -/
noncomputable def shadowRayOf (position normal : Vec3) (l : Light) : Ray :=
  ⟨position + (0.001 : ℝ) • normal, normalize (l.position - position)⟩

/-- Blinn-Phong contribution of one light (source lines 59-70): diffuse
term k_d * intensity * max(dot(normal, lightDir), 0) plus specular term
k_s * intensity * pow(max(dot(normal, halfVector), 0), n). -/
noncomputable def blinnTerm (mtl : Material) (position normal view : Vec3)
    (l : Light) : Vec3 :=
  let lightDir := normalize (l.position - position)
  let halfVector := normalize (lightDir + view)
  let ndotl := max (dot normal lightDir) 0
  let ndoth := max (dot normal halfVector) 0
  ndotl • (mtl.k_d * l.intensity) + glslPow ndoth mtl.n • (mtl.k_s * l.intensity)

/-- Contribution of one light inside the loop of Shade (source lines
46-70): zero when the shadow ray reports a hit strictly closer than the
light, the Blinn-Phong term otherwise. -/
noncomputable def shadeLight (spheres : List Sphere) (mtl : Material)
    (position normal view : Vec3) (l : Light) : Vec3 :=
  let res := IntersectRay spheres uninitHit (shadowRayOf position normal l)
  let distanceToLight := length (l.position - position)
  if res.1 = true ∧ res.2.t < distanceToLight then 0
  else blinnTerm mtl position normal view l

/-- Shade (source lines 39-73): sum of the per-light contributions over the
light list, starting from vec3(0,0,0). -/
noncomputable def Shade (spheres : List Sphere) (lights : List Light)
    (mtl : Material) (position normal view : Vec3) : Vec3 :=
  lights.foldl (fun color l => color + shadeLight spheres mtl position normal view l) 0

/-- Reflection loop of RayTracer (source lines 126-156), by recursion on the
remaining loop budget (MAX_BOUNCES minus the bounce counter).  The state is
the current ray, current hit, running attenuation k_s and accumulated
color; the loop breaks when the bounce counter reaches bounceLimit, when
the specular channels of the current hit material sum to at most zero, or
when a reflection ray escapes to the environment. -/
noncomputable def reflLoop (scene : Scene) :
    ℕ → ℕ → Ray → HitInfo → Vec3 → Vec3 → Vec3
  | 0, _, _, _, _, clr => clr
  | fuel + 1, bounce, ray, hit, ks, clr =>
    if scene.bounceLimit ≤ (bounce : ℤ) then clr
    else if hit.mtl.k_s.x + hit.mtl.k_s.y + hit.mtl.k_s.z ≤ 0 then clr
    else
      let r : Ray := ⟨hit.position + (0.001 : ℝ) • hit.normal, reflect ray.dir hit.normal⟩
      let res := IntersectRay scene.spheres uninitHit r
      if res.1 then
        reflLoop scene fuel (bounce + 1) r res.2 (ks * res.2.mtl.k_s)
          (clr + ks * Shade scene.spheres scene.lights res.2.mtl res.2.position
            res.2.normal (normalize (-r.dir)))
      else clr + ks * scene.envMap (xzy r.dir)

/-- Number of iterations of the reflection loop whose body runs past the
two break statements (the same control flow as reflLoop, counting instead
of accumulating color). -/
noncomputable def reflLoopSteps (scene : Scene) :
    ℕ → ℕ → Ray → HitInfo → Vec3 → ℕ
  | 0, _, _, _, _ => 0
  | fuel + 1, bounce, ray, hit, ks =>
    if scene.bounceLimit ≤ (bounce : ℤ) then 0
    else if hit.mtl.k_s.x + hit.mtl.k_s.y + hit.mtl.k_s.z ≤ 0 then 0
    else
      let r : Ray := ⟨hit.position + (0.001 : ℝ) • hit.normal, reflect ray.dir hit.normal⟩
      let res := IntersectRay scene.spheres uninitHit r
      if res.1 then 1 + reflLoopSteps scene fuel (bounce + 1) r res.2 (ks * res.2.mtl.k_s)
      else 1

/-- RayTracer (source lines 118-161): intersect the primary ray; on a hit
return the shaded color plus the reflection loop accumulation with alpha 1,
on a miss return the environment color sampled at the swizzled ray
direction with alpha 0. -/
noncomputable def RayTracer (scene : Scene) (ray : Ray) : Vec3 × ℝ :=
  let res := IntersectRay scene.spheres uninitHit ray
  if res.1 then
    (reflLoop scene scene.maxBounces 0 ray res.2 res.2.mtl.k_s
      (Shade scene.spheres scene.lights res.2.mtl res.2.position res.2.normal
        (normalize (-ray.dir))), 1)
  else (scene.envMap (xzy ray.dir), 0)

/-- A sphere candidate beats a current-best bound when it is present,
positive and strictly below the bound. -/
def beats (ray : Ray) (s : Sphere) (bound : ℝ) : Prop :=
  ∃ t, sphereCandidate ray s = some t ∧ 0 < t ∧ t < bound

/-- Componentwise nonnegativity of a vec3. -/
def Vec3.nonneg (v : Vec3) : Prop := 0 ≤ v.x ∧ 0 ≤ v.y ∧ 0 ≤ v.z

/-- Concrete red-specular material used in the concrete scenes. -/
noncomputable def mtlA : Material := ⟨⟨1, 0, 0⟩, ⟨1, 0, 0⟩, 1⟩

/-- Concrete green-specular material used in the concrete scenes. -/
noncomputable def mtlB : Material := ⟨⟨0, 0, 1⟩, ⟨0, 1, 0⟩, 1⟩

/-- Unit sphere at the origin with material mtlA. -/
noncomputable def sphA : Sphere := ⟨⟨0, 0, 0⟩, 1, mtlA⟩

/-- Unit sphere at (0,0,5) with material mtlB. -/
noncomputable def sphB : Sphere := ⟨⟨0, 0, 5⟩, 1, mtlB⟩

/-- Primary test ray from (0,0,5) toward the origin. -/
noncomputable def ray0 : Ray := ⟨⟨0, 0, 5⟩, ⟨0, 0, -1⟩⟩

/-- Reflection ray leaving sphA at (0,0,1.001) toward positive z. -/
noncomputable def r1 : Ray := ⟨⟨0, 0, 1.001⟩, ⟨0, 0, 1⟩⟩

/-- Concrete two-sphere scene with bounce limit 10 and cap 10. -/
noncomputable def scene4 : Scene := ⟨[sphA, sphB], [], fun _ => ⟨0, 0, 0⟩, 10, 10⟩

/-- Concrete empty scene with a distinguishable environment map. -/
noncomputable def sceneE : Scene := ⟨[], [], fun v => ⟨v.x + 1, v.y + 2, v.z + 3⟩, 3, 3⟩

/-- Concrete empty scene with bounce limit 0. -/
noncomputable def sceneL0 : Scene := ⟨[], [], fun _ => ⟨0, 0, 0⟩, 0, 3⟩

/-- Concrete caller-side HitInfo with t = 5, used to exhibit the sentinel
overwrite. -/
noncomputable def h5 : HitInfo := ⟨5, ⟨1, 2, 3⟩, ⟨0, 1, 0⟩, mtlA⟩

/-- Concrete light behind the surface used for the back-facing light
counterexample. -/
noncomputable def l7 : Light := ⟨⟨0, 0, -3⟩, ⟨1, 1, 1⟩⟩

/-- Concrete material with specular exponent 0 used for the back-facing
light counterexample. -/
noncomputable def mtl7 : Material := ⟨⟨1, 1, 1⟩, ⟨1, 1, 1⟩, 0⟩

/-- Concrete light used in witness instantiations. -/
noncomputable def lW : Light := ⟨⟨0, 0, 3⟩, ⟨1, 1, 1⟩⟩

/-- The t field written by hitRecord is the accepted candidate. -/
@[simp]
theorem hitRecord_t (ray : Ray) (s : Sphere) (t : ℝ) : (hitRecord ray s t).t = t := rfl

/-- Setting the sentinel writes 1e30 into the t field. -/
@[simp]
theorem setSentinel_t (h : HitInfo) : (setSentinel h).t = 1e30 := rfl

/-- A present candidate comes from a nonnegative discriminant and equals
the candT value. -/
theorem sphereCandidate_some {ray : Ray} {s : Sphere} {t : ℝ}
    (h : sphereCandidate ray s = some t) :
    0 ≤ discrim ray s ∧ t = candT ray s := by
  by_cases hd : 0 ≤ discrim ray s
  · rw [sphereCandidate, if_pos hd] at h
    exact ⟨hd, by simpa using h.symm⟩
  · rw [sphereCandidate, if_neg hd] at h
    cases h

/-- When the discriminant is nonnegative the candidate is present. -/
theorem sphereCandidate_of_disc {ray : Ray} {s : Sphere}
    (hd : 0 ≤ discrim ray s) : sphereCandidate ray s = some (candT ray s) := by
  rw [sphereCandidate, if_pos hd]

/-- A candidate beats a bound exactly when the discriminant is nonnegative
and candT lies strictly between 0 and the bound. -/
theorem beats_iff (ray : Ray) (s : Sphere) (b : ℝ) :
    beats ray s b ↔ 0 ≤ discrim ray s ∧ 0 < candT ray s ∧ candT ray s < b := by
  unfold beats sphereCandidate
  by_cases hd : 0 ≤ discrim ray s <;> simp [hd]

/-- Beating a bound is monotone in the bound. -/
theorem beats_mono {ray : Ray} {s : Sphere} {b1 b2 : ℝ}
    (h : beats ray s b1) (hle : b1 ≤ b2) : beats ray s b2 := by
  obtain ⟨t, hc, ht, hlt⟩ := h
  exact ⟨t, hc, ht, lt_of_lt_of_le hlt hle⟩

/-- The loop body leaves the state alone when the candidate of the tested
sphere does not beat the current best distance. -/
theorem intersectStep_not {ray : Ray} {s : Sphere} (acc : HitInfo × Bool)
    (h : ¬ beats ray s acc.1.t) : intersectStep ray acc s = acc := by
  rw [beats_iff] at h
  unfold intersectStep
  by_cases hd : 0 ≤ discrim ray s
  · rw [if_pos hd]
    by_cases hc : 0 < candT ray s ∧ candT ray s < acc.1.t
    · exact absurd ⟨hd, hc.1, hc.2⟩ h
    · rw [if_neg hc]
  · rw [if_neg hd]

/-- The loop body records the tested sphere when its candidate beats the
current best distance. -/
theorem intersectStep_yes {ray : Ray} {s : Sphere} (acc : HitInfo × Bool)
    (h : beats ray s acc.1.t) :
    intersectStep ray acc s = (hitRecord ray s (candT ray s), true) := by
  rw [beats_iff] at h
  unfold intersectStep
  rw [if_pos h.1, if_pos ⟨h.2.1, h.2.2⟩]

/-- When no sphere of the list beats the incoming best distance the whole
fold leaves the state unchanged. -/
theorem foldl_keep (ray : Ray) : ∀ (l : List Sphere) (h : HitInfo) (f : Bool),
    (∀ s ∈ l, ¬ beats ray s h.t) →
    l.foldl (intersectStep ray) (h, f) = (h, f)
  | [], _, _, _ => rfl
  | s0 :: l, h, f, H => by
    rw [List.foldl_cons, intersectStep_not _ (H s0 (by simp))]
    exact foldl_keep ray l h f (fun s hs => H s (by simp [hs]))

/-- Characterization of the sphere fold when some sphere beats the incoming
best distance: the result is the record of the first sphere achieving the
minimum beating candidate, with foundHit true. -/
theorem foldl_min (ray : Ray) : ∀ (l : List Sphere) (h : HitInfo) (f : Bool),
    (∃ s ∈ l, beats ray s h.t) →
    ∃ l1 s l2, l = l1 ++ s :: l2 ∧ beats ray s h.t ∧
      l.foldl (intersectStep ray) (h, f) = (hitRecord ray s (candT ray s), true) ∧
      (∀ s2 ∈ l, ∀ t2, sphereCandidate ray s2 = some t2 → 0 < t2 → t2 < h.t →
        candT ray s ≤ t2) ∧
      (∀ s1 ∈ l1, sphereCandidate ray s1 ≠ some (candT ray s))
  | [], _, _, hex => by simp at hex
  | s0 :: l, h, f, hex => by
    by_cases h0 : beats ray s0 h.t
    · by_cases h1 : ∃ s ∈ l, beats ray s (candT ray s0)
      · obtain ⟨l1, s, l2, hdec, hb, hfold, hmin, hfirst⟩ :=
          foldl_min ray l (hitRecord ray s0 (candT ray s0)) true (by simpa using h1)
        have hbm : beats ray s (candT ray s0) := by simpa using hb
        have hlt0 : candT ray s < candT ray s0 := ((beats_iff ..).mp hbm).2.2
        have hm0lt : candT ray s0 < h.t := ((beats_iff ..).mp h0).2.2
        refine ⟨s0 :: l1, s, l2, by rw [hdec]; rfl,
          beats_mono hbm (le_of_lt hm0lt), ?_, ?_, ?_⟩
        · rw [List.foldl_cons, intersectStep_yes _ h0, hfold]
        · intro s2 hs2 t2 hc2 ht2 hlt2
          rcases List.mem_cons.mp hs2 with heq | hmem
          · have := (sphereCandidate_some (heq ▸ hc2)).2
            subst this
            exact le_of_lt hlt0
          · by_cases hcase : t2 < candT ray s0
            · exact hmin s2 hmem t2 hc2 ht2 (by simpa using hcase)
            · exact le_trans (le_of_lt hlt0) (le_of_not_lt hcase)
        · intro s1 hs1
          rcases List.mem_cons.mp hs1 with heq | hmem
          · subst heq
            have hd0 : 0 ≤ discrim ray s1 := ((beats_iff ..).mp h0).1
            rw [sphereCandidate_of_disc hd0]
            intro hcontra
            have : candT ray s1 = candT ray s := by simpa using hcontra
            exact absurd (this ▸ hlt0) (lt_irrefl _)
          · exact hfirst s1 hmem
      · have hfold2 :
            l.foldl (intersectStep ray) (hitRecord ray s0 (candT ray s0), true) =
              (hitRecord ray s0 (candT ray s0), true) :=
          foldl_keep ray l _ true
            (fun s hs hb => h1 ⟨s, hs, by simpa using hb⟩)
        refine ⟨[], s0, l, rfl, h0, ?_, ?_, by simp⟩
        · rw [List.foldl_cons, intersectStep_yes _ h0]
          exact hfold2
        · intro s2 hs2 t2 hc2 ht2 hlt2
          rcases List.mem_cons.mp hs2 with heq | hmem
          · have := (sphereCandidate_some (heq ▸ hc2)).2
            subst this
            exact le_refl _
          · by_contra hcon
            exact h1 ⟨s2, hmem, t2, hc2, ht2, lt_of_not_le hcon⟩
    · have hex2 : ∃ s ∈ l, beats ray s h.t := by
        rcases hex with ⟨s, hs, hb⟩
        rcases List.mem_cons.mp hs with heq | hmem
        · exact absurd (heq ▸ hb) h0
        · exact ⟨s, hmem, hb⟩
      obtain ⟨l1, s, l2, hdec, hb, hfold, hmin, hfirst⟩ := foldl_min ray l h f hex2
      refine ⟨s0 :: l1, s, l2, by rw [hdec]; rfl, hb, ?_, ?_, ?_⟩
      · rw [List.foldl_cons, intersectStep_not _ h0]
        exact hfold
      · intro s2 hs2 t2 hc2 ht2 hlt2
        rcases List.mem_cons.mp hs2 with heq | hmem
        · exact absurd ⟨t2, heq ▸ hc2, ht2, hlt2⟩ h0
        · exact hmin s2 hmem t2 hc2 ht2 hlt2
      · intro s1 hs1
        rcases List.mem_cons.mp hs1 with heq | hmem
        · subst heq
          intro hcontra
          obtain ⟨hds, hps, hlts⟩ := (beats_iff ..).mp hb
          exact h0 ⟨candT ray s, hcontra, hps, hlts⟩
        · exact hfirst s1 hmem

/-- IntersectRay returns true exactly when some sphere has a positive
candidate strictly below the 1e30 sentinel. -/
theorem intersectRay_found_iff (spheres : List Sphere) (h0 : HitInfo) (ray : Ray) :
    (IntersectRay spheres h0 ray).1 = true ↔ ∃ s ∈ spheres, beats ray s 1e30 := by
  constructor
  · intro hf
    by_contra hex
    have hkeep := foldl_keep ray spheres (setSentinel h0) false
      (fun s hs hb => hex ⟨s, hs, by simpa using hb⟩)
    rw [IntersectRay] at hf
    rw [hkeep] at hf
    cases hf
  · intro hex
    obtain ⟨_, _, _, _, _, hfold, _, _⟩ :=
      foldl_min ray spheres (setSentinel h0) false (by simpa using hex)
    simp [IntersectRay, hfold]

/-- When IntersectRay returns false the resulting record is the incoming
one with only the t field replaced by the sentinel. -/
theorem intersectRay_false_spec (spheres : List Sphere) (h0 : HitInfo) (ray : Ray)
    (hf : (IntersectRay spheres h0 ray).1 = false) :
    (IntersectRay spheres h0 ray).2 = setSentinel h0 := by
  by_cases hex : ∃ s ∈ spheres, beats ray s 1e30
  · have := (intersectRay_found_iff spheres h0 ray).mpr hex
    rw [hf] at this
    cases this
  · have hkeep := foldl_keep ray spheres (setSentinel h0) false
      (fun s hs hb => hex ⟨s, hs, by simpa using hb⟩)
    simp [IntersectRay, hkeep]

/-- Full characterization of a successful IntersectRay call: the returned
distance is a positive sphere candidate below the sentinel, minimal among
all positive candidates, and the record is that of the first sphere in
collection order achieving this distance. -/
theorem intersectRay_true_spec (spheres : List Sphere) (h0 : HitInfo) (ray : Ray)
    (hf : (IntersectRay spheres h0 ray).1 = true) :
    ∃ l1 s l2, spheres = l1 ++ s :: l2 ∧
      sphereCandidate ray s = some ((IntersectRay spheres h0 ray).2.t) ∧
      0 < (IntersectRay spheres h0 ray).2.t ∧
      (IntersectRay spheres h0 ray).2.t < 1e30 ∧
      (∀ s2 ∈ spheres, ∀ t2, sphereCandidate ray s2 = some t2 → 0 < t2 →
        (IntersectRay spheres h0 ray).2.t ≤ t2) ∧
      (∀ s1 ∈ l1, sphereCandidate ray s1 ≠ some ((IntersectRay spheres h0 ray).2.t)) ∧
      (IntersectRay spheres h0 ray).2 = hitRecord ray s ((IntersectRay spheres h0 ray).2.t) := by
  have hex : ∃ s ∈ spheres, beats ray s 1e30 :=
    (intersectRay_found_iff spheres h0 ray).mp hf
  obtain ⟨l1, s, l2, hdec, hb, hfold, hmin, hfirst⟩ :=
    foldl_min ray spheres (setSentinel h0) false (by simpa using hex)
  have h2 : (IntersectRay spheres h0 ray).2 = hitRecord ray s (candT ray s) := by
    simp [IntersectRay, hfold]
  have ht : (IntersectRay spheres h0 ray).2.t = candT ray s := by rw [h2]; rfl
  obtain ⟨hdisc, hpos, hlt⟩ := (beats_iff ..).mp hb
  refine ⟨l1, s, l2, hdec, ?_, ?_, ?_, ?_, ?_, ?_⟩
  · rw [ht]
    exact sphereCandidate_of_disc hdisc
  · rw [ht]
    exact hpos
  · rw [ht]
    simpa using hlt
  · intro s2 hs2 t2 hc2 ht2
    rw [ht]
    by_cases hcase : t2 < 1e30
    · exact hmin s2 hs2 t2 hc2 ht2 (by simpa using hcase)
    · have h30 : candT ray s < 1e30 := by simpa using hlt
      linarith [le_of_not_lt hcase]
  · intro s1 hs1
    rw [ht]
    exact hfirst s1 hs1
  · rw [ht]
    exact h2

/-- Square-root evaluation helper for concrete perfect squares. -/
theorem sqrt_eval {a b : ℝ} (hb : 0 ≤ b) (h : b * b = a) : Real.sqrt a = b := by
  rw [← h]
  exact Real.sqrt_mul_self hb

/-- Discriminant of the primary test ray against sphA. -/
theorem discrim_ray0_sphA : discrim ray0 sphA = 4 := by
  norm_num [discrim, bCoef, aCoef, cCoef, dot, ray0, sphA]

/-- Near root of the primary test ray against sphA. -/
theorem tNear_ray0_sphA : tNear ray0 sphA = 4 := by
  rw [tNear, discrim_ray0_sphA, sqrt_eval (by norm_num : (0:ℝ) ≤ 2) (by norm_num)]
  norm_num [bCoef, aCoef, dot, ray0, sphA]

/-- Candidate of the primary test ray against sphA. -/
theorem candT_ray0_sphA : candT ray0 sphA = 4 := by
  rw [candT, tNear_ray0_sphA]
  norm_num

/-- The primary test ray beats the sentinel on sphA. -/
theorem beats_ray0_sphA : beats ray0 sphA 1e30 := by
  rw [beats_iff, discrim_ray0_sphA, candT_ray0_sphA]
  norm_num

/-- Concrete evaluation: the primary test ray hits sphA at distance 4 with
position (0,0,1) and normal (0,0,1). -/
theorem intersectRay_ray0_sphA :
    IntersectRay [sphA] uninitHit ray0 = (true, ⟨4, ⟨0, 0, 1⟩, ⟨0, 0, 1⟩, mtlA⟩) := by
  have hrec : hitRecord ray0 sphA 4 = ⟨4, ⟨0, 0, 1⟩, ⟨0, 0, 1⟩, mtlA⟩ := by
    have hlen : length ((ray0.pos + (4:ℝ) • ray0.dir) - sphA.center) = 1 := by
      rw [length]
      refine sqrt_eval (by norm_num) ?_
      norm_num [dot, ray0, sphA]
    rw [hitRecord, normalize, hlen]
    norm_num [ray0, sphA, Vec3.ext_iff]
  have hfold : [sphA].foldl (intersectStep ray0) (setSentinel uninitHit, false) =
      (hitRecord ray0 sphA (candT ray0 sphA), true) := by
    rw [List.foldl_cons, intersectStep_yes _ (by simpa using beats_ray0_sphA),
      List.foldl_nil]
  rw [IntersectRay, hfold, candT_ray0_sphA, hrec]

/-- C1: whenever IntersectRay returns true, the resulting HitInfo.t is the
minimum positive candidate distance over all spheres, strictly below the
1e30 sentinel, no nonpositive distance is accepted, and on an exact tie
the sphere earliest in collection order provides the recorded hit. -/
theorem intersectRay_min_positive (spheres : List Sphere) (h0 : HitInfo) (ray : Ray)
    (hf : (IntersectRay spheres h0 ray).1 = true) :
    ∃ l1 s l2, spheres = l1 ++ s :: l2 ∧
      sphereCandidate ray s = some ((IntersectRay spheres h0 ray).2.t) ∧
      0 < (IntersectRay spheres h0 ray).2.t ∧
      (IntersectRay spheres h0 ray).2.t < 1e30 ∧
      (∀ s2 ∈ spheres, ∀ t2, sphereCandidate ray s2 = some t2 → 0 < t2 →
        (IntersectRay spheres h0 ray).2.t ≤ t2) ∧
      (∀ s1 ∈ l1, sphereCandidate ray s1 ≠ some ((IntersectRay spheres h0 ray).2.t)) ∧
      (IntersectRay spheres h0 ray).2 = hitRecord ray s ((IntersectRay spheres h0 ray).2.t) :=
  intersectRay_true_spec spheres h0 ray hf

/-- Witness for C1 on the concrete one-sphere scene. -/
theorem intersectRay_min_positive_witness :
    (IntersectRay [sphA] uninitHit ray0).1 = true ∧
    ∃ l1 s l2, [sphA] = l1 ++ s :: l2 ∧
      sphereCandidate ray0 s = some ((IntersectRay [sphA] uninitHit ray0).2.t) ∧
      0 < (IntersectRay [sphA] uninitHit ray0).2.t ∧
      (IntersectRay [sphA] uninitHit ray0).2.t < 1e30 ∧
      (∀ s2 ∈ [sphA], ∀ t2, sphereCandidate ray0 s2 = some t2 → 0 < t2 →
        (IntersectRay [sphA] uninitHit ray0).2.t ≤ t2) ∧
      (∀ s1 ∈ l1, sphereCandidate ray0 s1 ≠ some ((IntersectRay [sphA] uninitHit ray0).2.t)) ∧
      (IntersectRay [sphA] uninitHit ray0).2 =
        hitRecord ray0 s ((IntersectRay [sphA] uninitHit ray0).2.t) :=
  ⟨by rw [intersectRay_ray0_sphA],
   intersectRay_min_positive [sphA] uninitHit ray0 (by rw [intersectRay_ray0_sphA])⟩

/-- C2: RayTracer returns alpha 1 exactly when the primary ray hits a
sphere, and on a miss it returns the environment color sampled at the
swizzled ray direction with alpha 0. -/
theorem rayTracer_alpha_env (scene : Scene) (ray : Ray) :
    ((IntersectRay scene.spheres uninitHit ray).1 = true →
      (RayTracer scene ray).2 = 1) ∧
    ((IntersectRay scene.spheres uninitHit ray).1 = false →
      RayTracer scene ray = (scene.envMap (xzy ray.dir), 0)) := by
  constructor
  · intro hf
    simp [RayTracer, hf]
  · intro hf
    simp [RayTracer, hf]

/-- Witness for C2 on the concrete empty scene, whose primary ray misses. -/
theorem rayTracer_alpha_env_witness :
    (IntersectRay sceneE.spheres uninitHit ray0).1 = false ∧
    RayTracer sceneE ray0 = (sceneE.envMap (xzy ray0.dir), 0) :=
  ⟨rfl, (rayTracer_alpha_env sceneE ray0).2 rfl⟩

/-- C8 (amended): a call of IntersectRay that finds no intersection leaves
the position, normal and material fields of the caller record unchanged,
but always overwrites the t field with the 1e30 sentinel. -/
theorem intersectRay_miss_frame (spheres : List Sphere) (h0 : HitInfo) (ray : Ray)
    (hf : (IntersectRay spheres h0 ray).1 = false) :
    (IntersectRay spheres h0 ray).2.position = h0.position ∧
    (IntersectRay spheres h0 ray).2.normal = h0.normal ∧
    (IntersectRay spheres h0 ray).2.mtl = h0.mtl ∧
    (IntersectRay spheres h0 ray).2.t = 1e30 := by
  rw [intersectRay_false_spec spheres h0 ray hf]
  exact ⟨rfl, rfl, rfl, rfl⟩

/-- Witness for the amended C8 on the concrete empty scene. -/
theorem intersectRay_miss_frame_witness :
    (IntersectRay [] h5 ray0).1 = false ∧
    ((IntersectRay [] h5 ray0).2.position = h5.position ∧
     (IntersectRay [] h5 ray0).2.normal = h5.normal ∧
     (IntersectRay [] h5 ray0).2.mtl = h5.mtl ∧
     (IntersectRay [] h5 ray0).2.t = 1e30) :=
  ⟨rfl, intersectRay_miss_frame [] h5 ray0 rfl⟩

/-- Counterexample to C8 as stated: on the empty scene IntersectRay returns
false, yet the caller record with t = 5 does not come back unchanged,
since its t field is overwritten with 1e30. -/
theorem intersectRay_miss_overwrites_t :
    (IntersectRay [] h5 ray0).1 = false ∧ (IntersectRay [] h5 ray0).2 ≠ h5 := by
  refine ⟨rfl, ?_⟩
  intro h
  have ht : (IntersectRay [] h5 ray0).2.t = h5.t := by rw [h]
  have h1 : (IntersectRay [] h5 ray0).2.t = 1e30 := rfl
  have h2 : h5.t = 5 := rfl
  rw [h1, h2] at ht
  norm_num at ht

/-- C3: the contribution of a light is dropped exactly under the
condition that the shadow-ray intersection reports a hit strictly closer
than the light; a hit at or beyond the light leaves the full Blinn-Phong
contribution, and (below the sentinel) the shadowing condition is
equivalent to some sphere having a positive candidate distance strictly
between the point and the light. -/
theorem shade_shadow_condition (spheres : List Sphere) (mtl : Material)
    (position normal view : Vec3) (l : Light) :
    ((IntersectRay spheres uninitHit (shadowRayOf position normal l)).1 = true →
      (IntersectRay spheres uninitHit (shadowRayOf position normal l)).2.t <
        length (l.position - position) →
      shadeLight spheres mtl position normal view l = 0) ∧
    ((IntersectRay spheres uninitHit (shadowRayOf position normal l)).1 = true →
      length (l.position - position) ≤
        (IntersectRay spheres uninitHit (shadowRayOf position normal l)).2.t →
      shadeLight spheres mtl position normal view l =
        blinnTerm mtl position normal view l) ∧
    ((IntersectRay spheres uninitHit (shadowRayOf position normal l)).1 = false →
      shadeLight spheres mtl position normal view l =
        blinnTerm mtl position normal view l) ∧
    (length (l.position - position) ≤ 1e30 →
      (((IntersectRay spheres uninitHit (shadowRayOf position normal l)).1 = true ∧
        (IntersectRay spheres uninitHit (shadowRayOf position normal l)).2.t <
          length (l.position - position)) ↔
        ∃ s ∈ spheres, ∃ t, sphereCandidate (shadowRayOf position normal l) s = some t ∧
          0 < t ∧ t < length (l.position - position))) := by
  refine ⟨?_, ?_, ?_, ?_⟩
  · intro h1 h2
    rw [shadeLight, if_pos ⟨h1, h2⟩]
  · intro h1 h2
    rw [shadeLight, if_neg]
    rintro ⟨_, hlt⟩
    exact absurd hlt (not_lt.mpr h2)
  · intro hf
    rw [shadeLight, if_neg]
    rintro ⟨ht, _⟩
    rw [hf] at ht
    cases ht
  · intro hdist
    constructor
    · rintro ⟨h1, h2⟩
      obtain ⟨l1, s, l2, hdec, hcand, hpos, _, _, _, _⟩ :=
        intersectRay_true_spec spheres uninitHit (shadowRayOf position normal l) h1
      refine ⟨s, ?_, (IntersectRay spheres uninitHit (shadowRayOf position normal l)).2.t,
        hcand, hpos, h2⟩
      rw [hdec]
      exact List.mem_append_right l1 (List.mem_cons_self s l2)
    · rintro ⟨s, hs, t, hc, ht0, htd⟩
      have hb : beats (shadowRayOf position normal l) s 1e30 :=
        ⟨t, hc, ht0, lt_of_lt_of_le htd hdist⟩
      have h1 : (IntersectRay spheres uninitHit (shadowRayOf position normal l)).1 = true :=
        (intersectRay_found_iff spheres uninitHit (shadowRayOf position normal l)).mpr
          ⟨s, hs, hb⟩
      obtain ⟨_, _, _, _, _, _, _, hmin, _, _⟩ :=
        intersectRay_true_spec spheres uninitHit (shadowRayOf position normal l) h1
      exact ⟨h1, lt_of_le_of_lt (hmin s hs t hc ht0) htd⟩

/-- Witness for C3 on the concrete empty scene: the shadow ray reports no
hit and the full Blinn-Phong contribution is kept. -/
theorem shade_shadow_condition_witness :
    (IntersectRay [] uninitHit (shadowRayOf ⟨0, 0, 0⟩ ⟨0, 1, 0⟩ lW)).1 = false ∧
    shadeLight [] mtlA ⟨0, 0, 0⟩ ⟨0, 1, 0⟩ ⟨0, 0, 1⟩ lW =
      blinnTerm mtlA ⟨0, 0, 0⟩ ⟨0, 1, 0⟩ ⟨0, 0, 1⟩ lW :=
  ⟨rfl, (shade_shadow_condition [] mtlA ⟨0, 0, 0⟩ ⟨0, 1, 0⟩ ⟨0, 0, 1⟩ lW).2.2.1 rfl⟩

/-- C5: for a ray whose origin is strictly inside a sphere the near root is
negative, the far root positive, the per-sphere candidate is the far root,
and the loop body accepts exactly the far root against the current best. -/
theorem sphereCandidate_inside_far_root (ray : Ray) (s : Sphere) (acc : HitInfo × Bool)
    (ha : 0 < dot ray.dir ray.dir)
    (hin : dot (ray.pos - s.center) (ray.pos - s.center) < s.radius * s.radius) :
    tNear ray s < 0 ∧ 0 < tFar ray s ∧
    sphereCandidate ray s = some (tFar ray s) ∧
    intersectStep ray acc s =
      if tFar ray s < acc.1.t then (hitRecord ray s (tFar ray s), true) else acc := by
  have hc : cCoef ray s < 0 := by
    rw [cCoef]
    linarith
  have ha' : 0 < aCoef ray := ha
  have hac : aCoef ray * cCoef ray s < 0 := mul_neg_of_pos_of_neg ha' hc
  have hd : bCoef ray s * bCoef ray s < discrim ray s := by
    rw [discrim]
    linarith
  have hd0 : 0 ≤ discrim ray s := le_trans (mul_self_nonneg _) (le_of_lt hd)
  have habs : |bCoef ray s| < Real.sqrt (discrim ray s) := by
    rw [← Real.sqrt_mul_self_eq_abs]
    exact Real.sqrt_lt_sqrt (mul_self_nonneg _) hd
  have h2a : 0 < 2 * aCoef ray := by linarith
  have htn : tNear ray s < 0 := by
    rw [tNear]
    apply div_neg_of_neg_of_pos _ h2a
    have := neg_le_abs (bCoef ray s)
    linarith
  have htf : 0 < tFar ray s := by
    rw [tFar]
    apply div_pos _ h2a
    have := le_abs_self (bCoef ray s)
    linarith
  have hcand : candT ray s = tFar ray s := by
    rw [candT, if_neg (not_lt.mpr (le_of_lt htn))]
  refine ⟨htn, htf, ?_, ?_⟩
  · rw [sphereCandidate_of_disc hd0, hcand]
  · rw [intersectStep, if_pos hd0, hcand]
    by_cases hy : tFar ray s < acc.1.t
    · rw [if_pos ⟨htf, hy⟩, if_pos hy]
    · rw [if_neg (fun hcon => hy hcon.2), if_neg hy]

/-- Witness for C5: a ray starting at the center of a radius-2 sphere. -/
theorem sphereCandidate_inside_far_root_witness :
    0 < dot (Ray.mk ⟨0, 0, 0⟩ ⟨0, 0, 1⟩).dir (Ray.mk ⟨0, 0, 0⟩ ⟨0, 0, 1⟩).dir ∧
    dot ((Ray.mk ⟨0, 0, 0⟩ ⟨0, 0, 1⟩).pos - (Sphere.mk ⟨0, 0, 0⟩ 2 mtlA).center)
        ((Ray.mk ⟨0, 0, 0⟩ ⟨0, 0, 1⟩).pos - (Sphere.mk ⟨0, 0, 0⟩ 2 mtlA).center) <
      (Sphere.mk ⟨0, 0, 0⟩ 2 mtlA).radius * (Sphere.mk ⟨0, 0, 0⟩ 2 mtlA).radius ∧
    (tNear (Ray.mk ⟨0, 0, 0⟩ ⟨0, 0, 1⟩) (Sphere.mk ⟨0, 0, 0⟩ 2 mtlA) < 0 ∧
     0 < tFar (Ray.mk ⟨0, 0, 0⟩ ⟨0, 0, 1⟩) (Sphere.mk ⟨0, 0, 0⟩ 2 mtlA) ∧
     sphereCandidate (Ray.mk ⟨0, 0, 0⟩ ⟨0, 0, 1⟩) (Sphere.mk ⟨0, 0, 0⟩ 2 mtlA) =
       some (tFar (Ray.mk ⟨0, 0, 0⟩ ⟨0, 0, 1⟩) (Sphere.mk ⟨0, 0, 0⟩ 2 mtlA)) ∧
     intersectStep (Ray.mk ⟨0, 0, 0⟩ ⟨0, 0, 1⟩) (setSentinel uninitHit, false)
         (Sphere.mk ⟨0, 0, 0⟩ 2 mtlA) =
       if tFar (Ray.mk ⟨0, 0, 0⟩ ⟨0, 0, 1⟩) (Sphere.mk ⟨0, 0, 0⟩ 2 mtlA) <
           (setSentinel uninitHit, false).1.t then
         (hitRecord (Ray.mk ⟨0, 0, 0⟩ ⟨0, 0, 1⟩) (Sphere.mk ⟨0, 0, 0⟩ 2 mtlA)
           (tFar (Ray.mk ⟨0, 0, 0⟩ ⟨0, 0, 1⟩) (Sphere.mk ⟨0, 0, 0⟩ 2 mtlA)), true)
       else (setSentinel uninitHit, false)) :=
  ⟨by norm_num [dot], by norm_num [dot],
   sphereCandidate_inside_far_root (Ray.mk ⟨0, 0, 0⟩ ⟨0, 0, 1⟩) (Sphere.mk ⟨0, 0, 0⟩ 2 mtlA)
     (setSentinel uninitHit, false) (by norm_num [dot]) (by norm_num [dot])⟩

/-- The number of loop iterations is bounded by the remaining budget and by
the distance from the bounce counter to the bounce limit. -/
theorem reflLoopSteps_le (scene : Scene) : ∀ (fuel bounce : ℕ) (ray : Ray)
    (hit : HitInfo) (ks : Vec3),
    reflLoopSteps scene fuel bounce ray hit ks ≤
      min (scene.bounceLimit - bounce).toNat fuel
  | 0, _, _, _, _ => by
    rw [reflLoopSteps]
    exact Nat.zero_le _
  | fuel + 1, bounce, ray, hit, ks => by
    rw [reflLoopSteps]
    by_cases hb : scene.bounceLimit ≤ (bounce : ℤ)
    · rw [if_pos hb]
      exact Nat.zero_le _
    · rw [if_neg hb]
      by_cases hk : hit.mtl.k_s.x + hit.mtl.k_s.y + hit.mtl.k_s.z ≤ 0
      · rw [if_pos hk]
        exact Nat.zero_le _
      · rw [if_neg hk]
        have hlt : (bounce : ℤ) < scene.bounceLimit := lt_of_not_le hb
        by_cases hres : (IntersectRay scene.spheres uninitHit
            ⟨hit.position + (0.001 : ℝ) • hit.normal, reflect ray.dir hit.normal⟩).1 = true
        · simp only [hres, if_true]
          have ih := reflLoopSteps_le scene fuel (bounce + 1)
            ⟨hit.position + (0.001 : ℝ) • hit.normal, reflect ray.dir hit.normal⟩
            (IntersectRay scene.spheres uninitHit
              ⟨hit.position + (0.001 : ℝ) • hit.normal, reflect ray.dir hit.normal⟩).2
            (ks * (IntersectRay scene.spheres uninitHit
              ⟨hit.position + (0.001 : ℝ) • hit.normal, reflect ray.dir hit.normal⟩).2.mtl.k_s)
          omega
        · rw [Bool.not_eq_true] at hres
          simp only [hres, Bool.false_eq_true, if_false]
          omega

/-- The reflection loop returns the incoming color untouched when the
bounce limit is zero. -/
theorem reflLoop_zero_limit (scene : Scene) (h : scene.bounceLimit = 0)
    (mb : ℕ) (ray : Ray) (hit : HitInfo) (ks clr : Vec3) :
    reflLoop scene mb 0 ray hit ks clr = clr := by
  cases mb with
  | zero => rw [reflLoop]
  | succ n =>
    rw [reflLoop, if_pos]
    rw [h]
    exact le_refl _

/-- C6: the reflection loop executes at most min(bounceLimit, MAX_BOUNCES)
iterations, and with bounce limit 0 the evaluator returns exactly the
direct shading of the primary hit with alpha 1 and no reflection term. -/
theorem rayTracer_bounce_bound (scene : Scene) (ray : Ray) (hit : HitInfo) (ks : Vec3)
    (hbl : 0 ≤ scene.bounceLimit) :
    reflLoopSteps scene scene.maxBounces 0 ray hit ks ≤
      min scene.bounceLimit.toNat scene.maxBounces ∧
    (scene.bounceLimit = 0 → (IntersectRay scene.spheres uninitHit ray).1 = true →
      RayTracer scene ray =
        (Shade scene.spheres scene.lights
          (IntersectRay scene.spheres uninitHit ray).2.mtl
          (IntersectRay scene.spheres uninitHit ray).2.position
          (IntersectRay scene.spheres uninitHit ray).2.normal
          (normalize (-ray.dir)), 1)) := by
  constructor
  · have h := reflLoopSteps_le scene scene.maxBounces 0 ray hit ks
    simpa using h
  · intro h0 hf
    simp only [RayTracer, hf, if_true]
    rw [reflLoop_zero_limit scene h0]

/-- Witness for C6 on the concrete empty scene with bounce limit zero. -/
theorem rayTracer_bounce_bound_witness :
    (0 : ℤ) ≤ sceneL0.bounceLimit ∧
    reflLoopSteps sceneL0 sceneL0.maxBounces 0 ray0 uninitHit 0 ≤
      min sceneL0.bounceLimit.toNat sceneL0.maxBounces :=
  ⟨by norm_num [sceneL0],
   (rayTracer_bounce_bound sceneL0 ray0 uninitHit 0 (by norm_num [sceneL0])).1⟩

/-- C7 (amended): a light whose direction fails both dot-product tests
contributes exactly zero, provided the specular exponent is positive;
the zero arises from the max clamps alone. -/
theorem shadeLight_backfacing_zero (spheres : List Sphere) (mtl : Material)
    (position normal view : Vec3) (l : Light)
    (h1 : dot normal (normalize (l.position - position)) ≤ 0)
    (h2 : dot normal (normalize (normalize (l.position - position) + view)) ≤ 0)
    (hn : 0 < mtl.n) :
    shadeLight spheres mtl position normal view l = 0 := by
  rw [shadeLight]
  by_cases hs : (IntersectRay spheres uninitHit (shadowRayOf position normal l)).1 = true ∧
      (IntersectRay spheres uninitHit (shadowRayOf position normal l)).2.t <
        length (l.position - position)
  · rw [if_pos hs]
  · rw [if_neg hs]
    simp only [blinnTerm]
    rw [max_eq_right h1, max_eq_right h2]
    have hp : glslPow 0 mtl.n = 0 := by
      rw [glslPow]
      exact Real.zero_rpow (ne_of_gt hn)
    rw [hp]
    ext <;> simp

/-- Witness for the amended C7: a light behind the surface with a positive
specular exponent contributes nothing. -/
theorem shadeLight_backfacing_zero_witness :
    dot ⟨0, 1, 0⟩ (normalize (l7.position - (⟨0, 0, 0⟩ : Vec3))) ≤ 0 ∧
    dot ⟨0, 1, 0⟩ (normalize (normalize (l7.position - (⟨0, 0, 0⟩ : Vec3)) + ⟨0, 0, 1⟩)) ≤ 0 ∧
    0 < mtlA.n ∧
    shadeLight [] mtlA ⟨0, 0, 0⟩ ⟨0, 1, 0⟩ ⟨0, 0, 1⟩ l7 = 0 := by
  have hposd : l7.position - (⟨0, 0, 0⟩ : Vec3) = ⟨0, 0, -3⟩ := by
    rw [l7]
    ext <;> norm_num
  have ha : dot ⟨0, 1, 0⟩ (normalize (l7.position - (⟨0, 0, 0⟩ : Vec3))) ≤ 0 := by
    rw [hposd, normalize]
    norm_num [dot, length]
  have hb : dot ⟨0, 1, 0⟩
      (normalize (normalize (l7.position - (⟨0, 0, 0⟩ : Vec3)) + ⟨0, 0, 1⟩)) ≤ 0 := by
    rw [hposd, normalize, normalize]
    norm_num [dot, length]
  have hc : (0 : ℝ) < mtlA.n := by norm_num [mtlA]
  exact ⟨ha, hb, hc,
    shadeLight_backfacing_zero [] mtlA ⟨0, 0, 0⟩ ⟨0, 1, 0⟩ ⟨0, 0, 1⟩ l7 ha hb hc⟩

/-- Counterexample to C7 as stated: with specular exponent 0 a light that
fails both dot-product tests still contributes, because the specular term
raises the clamped value 0 to the power 0, which is 1; the claim only holds
for positive exponents. -/
theorem shadeLight_backfacing_counterexample :
    dot ⟨0, 0, 1⟩ (normalize (l7.position - (⟨0, 0, 0⟩ : Vec3))) ≤ 0 ∧
    dot ⟨0, 0, 1⟩ (normalize (normalize (l7.position - (⟨0, 0, 0⟩ : Vec3)) + ⟨0, 0, -1⟩)) ≤ 0 ∧
    0 ≤ mtl7.n ∧
    shadeLight [] mtl7 ⟨0, 0, 0⟩ ⟨0, 0, 1⟩ ⟨0, 0, -1⟩ l7 ≠ 0 := by
  have hld : normalize (l7.position - (⟨0, 0, 0⟩ : Vec3)) = ⟨0, 0, -1⟩ := by
    have hlen : length (l7.position - (⟨0, 0, 0⟩ : Vec3)) = 3 := by
      rw [length]
      refine sqrt_eval (by norm_num) ?_
      norm_num [dot, l7]
    rw [normalize, hlen]
    ext <;> norm_num [l7]
  have hhalf : normalize ((⟨0, 0, -1⟩ : Vec3) + ⟨0, 0, -1⟩) = ⟨0, 0, -1⟩ := by
    have hlen : length ((⟨0, 0, -1⟩ : Vec3) + ⟨0, 0, -1⟩) = 2 := by
      rw [length]
      refine sqrt_eval (by norm_num) ?_
      norm_num [dot]
    rw [normalize, hlen]
    ext <;> norm_num
  have hdotv : dot (⟨0, 0, 1⟩ : Vec3) ⟨0, 0, -1⟩ = -1 := by norm_num [dot]
  refine ⟨?_, ?_, ?_, ?_⟩
  · rw [hld, hdotv]
    norm_num
  · rw [hld, hhalf, hdotv]
    norm_num
  · norm_num [mtl7]
  · intro heq
    rw [shadeLight, if_neg] at heq
    · simp only [blinnTerm] at heq
      rw [hld, hhalf, hdotv] at heq
      have hmax : max (-1 : ℝ) 0 = 0 := max_eq_right (by norm_num)
      rw [hmax] at heq
      have hpow : glslPow 0 mtl7.n = 1 := by
        rw [glslPow]
        exact Real.rpow_zero 0
      rw [hpow] at heq
      have hx := congrArg Vec3.x heq
      norm_num [mtl7, l7] at hx
    · rintro ⟨hc, _⟩
      exact Bool.false_ne_true hc

/-- Componentwise nonnegativity is preserved by vector addition. -/
theorem Vec3.nonneg_add {u v : Vec3} (hu : u.nonneg) (hv : v.nonneg) : (u + v).nonneg :=
  ⟨add_nonneg hu.1 hv.1, add_nonneg hu.2.1 hv.2.1, add_nonneg hu.2.2 hv.2.2⟩

/-- The Blinn-Phong term of a light is componentwise nonnegative for
nonnegative material coefficients and light intensity. -/
theorem blinnTerm_nonneg (mtl : Material) (position normal view : Vec3) (l : Light)
    (hkd : mtl.k_d.nonneg) (hks : mtl.k_s.nonneg) (hI : l.intensity.nonneg) :
    (blinnTerm mtl position normal view l).nonneg := by
  have hl : (0 : ℝ) ≤ max (dot normal (normalize (l.position - position))) 0 :=
    le_max_right _ 0
  have hp : (0 : ℝ) ≤ glslPow
      (max (dot normal (normalize (normalize (l.position - position) + view))) 0) mtl.n :=
    Real.rpow_nonneg (le_max_right _ 0) _
  simp only [blinnTerm, glslPow] at *
  refine ⟨?_, ?_, ?_⟩ <;> simp only [Vec3.add_x, Vec3.add_y, Vec3.add_z,
    Vec3.smul_x, Vec3.smul_y, Vec3.smul_z, Vec3.mul_x, Vec3.mul_y, Vec3.mul_z]
  · exact add_nonneg (mul_nonneg hl (mul_nonneg hkd.1 hI.1))
      (mul_nonneg hp (mul_nonneg hks.1 hI.1))
  · exact add_nonneg (mul_nonneg hl (mul_nonneg hkd.2.1 hI.2.1))
      (mul_nonneg hp (mul_nonneg hks.2.1 hI.2.1))
  · exact add_nonneg (mul_nonneg hl (mul_nonneg hkd.2.2 hI.2.2))
      (mul_nonneg hp (mul_nonneg hks.2.2 hI.2.2))

/-- The per-light contribution is componentwise nonnegative. -/
theorem shadeLight_nonneg (spheres : List Sphere) (mtl : Material)
    (position normal view : Vec3) (l : Light)
    (hkd : mtl.k_d.nonneg) (hks : mtl.k_s.nonneg) (hI : l.intensity.nonneg) :
    (shadeLight spheres mtl position normal view l).nonneg := by
  rw [shadeLight]
  by_cases hs : (IntersectRay spheres uninitHit (shadowRayOf position normal l)).1 = true ∧
      (IntersectRay spheres uninitHit (shadowRayOf position normal l)).2.t <
        length (l.position - position)
  · rw [if_pos hs]
    exact ⟨le_refl 0, le_refl 0, le_refl 0⟩
  · rw [if_neg hs]
    exact blinnTerm_nonneg mtl position normal view l hkd hks hI

/-- The fold of Shade preserves componentwise nonnegativity. -/
theorem shade_foldl_nonneg (spheres : List Sphere) (mtl : Material)
    (position normal view : Vec3)
    (hkd : mtl.k_d.nonneg) (hks : mtl.k_s.nonneg) :
    ∀ (lights : List Light) (acc : Vec3), acc.nonneg →
      (∀ l ∈ lights, l.intensity.nonneg) →
      (lights.foldl (fun color l => color + shadeLight spheres mtl position normal view l)
        acc).nonneg
  | [], acc, ha, _ => ha
  | l :: ls, acc, ha, hI => by
    rw [List.foldl_cons]
    exact shade_foldl_nonneg spheres mtl position normal view hkd hks ls _
      (Vec3.nonneg_add ha
        (shadeLight_nonneg spheres mtl position normal view l hkd hks (hI l (by simp))))
      (fun l2 hl2 => hI l2 (by simp [hl2]))

/-- C10: for componentwise nonnegative material coefficients and light
intensities, every component of the color returned by Shade is
nonnegative. -/
theorem shade_nonneg (spheres : List Sphere) (lights : List Light) (mtl : Material)
    (position normal view : Vec3)
    (hkd : mtl.k_d.nonneg) (hks : mtl.k_s.nonneg)
    (hI : ∀ l ∈ lights, l.intensity.nonneg) :
    (Shade spheres lights mtl position normal view).nonneg :=
  shade_foldl_nonneg spheres mtl position normal view hkd hks lights 0
    ⟨le_refl 0, le_refl 0, le_refl 0⟩ hI

/-- Witness for C10 on a concrete one-light configuration. -/
theorem shade_nonneg_witness :
    mtlA.k_d.nonneg ∧ mtlA.k_s.nonneg ∧ (∀ l ∈ [lW], l.intensity.nonneg) ∧
    (Shade [] [lW] mtlA ⟨0, 0, 0⟩ ⟨0, 1, 0⟩ ⟨0, 0, 1⟩).nonneg := by
  have h1 : mtlA.k_d.nonneg := by
    refine ⟨?_, ?_, ?_⟩ <;> norm_num [mtlA]
  have h2 : mtlA.k_s.nonneg := by
    refine ⟨?_, ?_, ?_⟩ <;> norm_num [mtlA]
  have h3 : ∀ l ∈ [lW], l.intensity.nonneg := by
    intro l hl
    rw [List.mem_singleton] at hl
    subst hl
    refine ⟨?_, ?_, ?_⟩ <;> norm_num [lW]
  exact ⟨h1, h2, h3, shade_nonneg [] [lW] mtlA ⟨0, 0, 0⟩ ⟨0, 1, 0⟩ ⟨0, 0, 1⟩ h1 h2 h3⟩

/-- Discriminant of the reflection test ray against sphA. -/
theorem discrim_r1_sphA : discrim r1 sphA = 4 := by
  norm_num [discrim, bCoef, aCoef, cCoef, dot, r1, sphA]

/-- Near root of the reflection test ray against sphA. -/
theorem tNear_r1_sphA : tNear r1 sphA = -2.001 := by
  rw [tNear, discrim_r1_sphA, sqrt_eval (by norm_num : (0:ℝ) ≤ 2) (by norm_num)]
  norm_num [bCoef, aCoef, dot, r1, sphA]

/-- Far root of the reflection test ray against sphA. -/
theorem tFar_r1_sphA : tFar r1 sphA = -0.001 := by
  rw [tFar, discrim_r1_sphA, sqrt_eval (by norm_num : (0:ℝ) ≤ 2) (by norm_num)]
  norm_num [bCoef, aCoef, dot, r1, sphA]

/-- The reflection test ray does not accept sphA: both roots are behind
the origin. -/
theorem not_beats_r1_sphA (b : ℝ) : ¬ beats r1 sphA b := by
  intro hb
  have := ((beats_iff ..).mp hb).2.1
  rw [candT, tNear_r1_sphA, if_neg (by norm_num), tFar_r1_sphA] at this
  norm_num at this

/-- Discriminant of the reflection test ray against sphB. -/
theorem discrim_r1_sphB : discrim r1 sphB = 4 := by
  norm_num [discrim, bCoef, aCoef, cCoef, dot, r1, sphB]

/-- Near root of the reflection test ray against sphB. -/
theorem tNear_r1_sphB : tNear r1 sphB = 2.999 := by
  rw [tNear, discrim_r1_sphB, sqrt_eval (by norm_num : (0:ℝ) ≤ 2) (by norm_num)]
  norm_num [bCoef, aCoef, dot, r1, sphB]

/-- Candidate of the reflection test ray against sphB. -/
theorem candT_r1_sphB : candT r1 sphB = 2.999 := by
  rw [candT, tNear_r1_sphB]
  norm_num

/-- The reflection test ray beats the sentinel on sphB. -/
theorem beats_r1_sphB : beats r1 sphB 1e30 := by
  rw [beats_iff, discrim_r1_sphB, candT_r1_sphB]
  norm_num

/-- Concrete evaluation: the reflection test ray in the two-sphere scene
hits sphB at distance 2.999. -/
theorem intersectRay_r1_scene4 :
    IntersectRay [sphA, sphB] uninitHit r1 =
      (true, ⟨2.999, ⟨0, 0, 4⟩, ⟨0, 0, -1⟩, mtlB⟩) := by
  have hrec : hitRecord r1 sphB 2.999 = ⟨2.999, ⟨0, 0, 4⟩, ⟨0, 0, -1⟩, mtlB⟩ := by
    have hlen : length ((r1.pos + (2.999 : ℝ) • r1.dir) - sphB.center) = 1 := by
      rw [length]
      refine sqrt_eval (by norm_num) ?_
      norm_num [dot, r1, sphB]
    rw [hitRecord, normalize, hlen]
    norm_num [r1, sphB, Vec3.ext_iff]
  have hfold : [sphA, sphB].foldl (intersectStep r1) (setSentinel uninitHit, false) =
      (hitRecord r1 sphB (candT r1 sphB), true) := by
    rw [List.foldl_cons, intersectStep_not _ (not_beats_r1_sphA _),
      List.foldl_cons, intersectStep_yes _ (by simpa using beats_r1_sphB),
      List.foldl_nil]
  rw [IntersectRay, hfold, candT_r1_sphB, hrec]

/-- One more loop iteration runs whenever neither break condition fires,
whatever the running attenuation. -/
theorem reflLoopSteps_pos (scene : Scene) (fuel bounce : ℕ) (ray : Ray)
    (hit : HitInfo) (ks : Vec3)
    (hb : ¬ scene.bounceLimit ≤ (bounce : ℤ))
    (hk : ¬ hit.mtl.k_s.x + hit.mtl.k_s.y + hit.mtl.k_s.z ≤ 0) :
    1 ≤ reflLoopSteps scene (fuel + 1) bounce ray hit ks := by
  rw [reflLoopSteps, if_neg hb, if_neg hk]
  by_cases hres : (IntersectRay scene.spheres uninitHit
      ⟨hit.position + (0.001 : ℝ) • hit.normal, reflect ray.dir hit.normal⟩).1 = true
  · simp only [hres, if_true]
    exact Nat.le_add_right 1 _
  · rw [Bool.not_eq_true] at hres
    simp only [hres, Bool.false_eq_true, if_false]
    exact le_refl 1

/-- C4 (amended): the reflection loop terminates with the accumulated color
unchanged, executing no further iteration, as soon as the color channels of
the specular coefficient of the current hit material sum to at most zero;
the break tests the current material, not the running attenuation. -/
theorem reflLoop_material_absorbed (scene : Scene) (fuel bounce : ℕ) (ray : Ray)
    (hit : HitInfo) (ks clr : Vec3)
    (habs : hit.mtl.k_s.x + hit.mtl.k_s.y + hit.mtl.k_s.z ≤ 0) :
    reflLoop scene fuel bounce ray hit ks clr = clr ∧
    reflLoopSteps scene fuel bounce ray hit ks = 0 := by
  cases fuel with
  | zero => exact ⟨rfl, rfl⟩
  | succ n =>
    constructor
    · rw [reflLoop]
      by_cases hb : scene.bounceLimit ≤ (bounce : ℤ)
      · rw [if_pos hb]
      · rw [if_neg hb, if_pos habs]
    · rw [reflLoopSteps]
      by_cases hb : scene.bounceLimit ≤ (bounce : ℤ)
      · rw [if_pos hb]
      · rw [if_neg hb, if_pos habs]

/-- Witness for the amended C4: a current hit with zero specular material
stops the loop at once. -/
theorem reflLoop_material_absorbed_witness :
    uninitHit.mtl.k_s.x + uninitHit.mtl.k_s.y + uninitHit.mtl.k_s.z ≤ 0 ∧
    (reflLoop sceneE 3 0 ray0 uninitHit 0 ⟨7, 8, 9⟩ = ⟨7, 8, 9⟩ ∧
     reflLoopSteps sceneE 3 0 ray0 uninitHit 0 = 0) :=
  ⟨by norm_num [uninitHit],
   reflLoop_material_absorbed sceneE 3 0 ray0 uninitHit 0 ⟨7, 8, 9⟩
     (by norm_num [uninitHit])⟩

/-- Counterexample to C4 as stated: after the first bounce of the
two-sphere scene the running attenuation is the product of the two hit
specular coefficients, which is the zero vector, yet the loop still
executes at least one further iteration from that state. -/
theorem reflLoop_absorbed_counterexample :
    mtlA.k_s * (IntersectRay [sphA, sphB] uninitHit r1).2.mtl.k_s = 0 ∧
    1 ≤ reflLoopSteps scene4 10 1 r1 (IntersectRay [sphA, sphB] uninitHit r1).2
      (mtlA.k_s * (IntersectRay [sphA, sphB] uninitHit r1).2.mtl.k_s) := by
  constructor
  · rw [intersectRay_r1_scene4]
    ext <;> norm_num [mtlA, mtlB]
  · rw [intersectRay_r1_scene4]
    rw [show (10 : ℕ) = 9 + 1 by norm_num]
    exact reflLoopSteps_pos scene4 9 1 r1 _ _ (by norm_num [scene4])
      (by norm_num [mtlB])

/-- The dot product of a vector with itself is nonnegative. -/
theorem dot_self_nonneg (v : Vec3) : 0 ≤ dot v v := by
  rw [dot]
  exact add_nonneg (add_nonneg (mul_self_nonneg _) (mul_self_nonneg _))
    (mul_self_nonneg _)

/-- Scaling the right argument scales the dot product. -/
theorem dot_smul_right (a : ℝ) (u v : Vec3) : dot u (a • v) = a * dot u v := by
  simp only [dot, Vec3.smul_x, Vec3.smul_y, Vec3.smul_z]
  ring

/-- Scaling the left argument scales the dot product. -/
theorem dot_smul_left (a : ℝ) (u v : Vec3) : dot (a • u) v = a * dot u v := by
  simp only [dot, Vec3.smul_x, Vec3.smul_y, Vec3.smul_z]
  ring

/-- Negating the left argument negates the dot product. -/
theorem dot_neg_left (u v : Vec3) : dot (-u) v = -dot u v := by
  simp only [dot, Vec3.neg_x, Vec3.neg_y, Vec3.neg_z]
  ring

/-- Negating the right argument negates the dot product. -/
theorem dot_neg_right (u v : Vec3) : dot u (-v) = -dot u v := by
  simp only [dot, Vec3.neg_x, Vec3.neg_y, Vec3.neg_z]
  ring

/-- Swapping the operands of a vector subtraction negates it. -/
theorem Vec3.sub_swap (u v : Vec3) : u - v = -(v - u) := by
  ext <;> simp

/-- C9 (amended): for a unit-direction ray whose origin is outside a single
sphere at distance d from its center and aimed exactly at the center,
IntersectRay returns a hit at distance d minus the radius, provided that
distance lies below the 1e30 sentinel. -/
theorem intersectRay_aimed_center (center pos : Vec3) (r d : ℝ) (mtl : Material)
    (h0 : HitInfo)
    (hr : 0 ≤ r) (hlen : length (center - pos) = d) (hrd : r < d)
    (hsent : d - r < 1e30) :
    (IntersectRay [⟨center, r, mtl⟩] h0 ⟨pos, (1 / d) • (center - pos)⟩).1 = true ∧
    (IntersectRay [⟨center, r, mtl⟩] h0 ⟨pos, (1 / d) • (center - pos)⟩).2.t = d - r := by
  have hnn : 0 ≤ dot (center - pos) (center - pos) := dot_self_nonneg _
  have hd0 : 0 < d := lt_of_le_of_lt hr hrd
  have hdd : dot (center - pos) (center - pos) = d * d := by
    rw [← hlen, length]
    exact (Real.mul_self_sqrt hnn).symm
  have ha : aCoef ⟨pos, (1 / d) • (center - pos)⟩ = 1 := by
    show dot ((1 / d) • (center - pos)) ((1 / d) • (center - pos)) = 1
    rw [dot_smul_left, dot_smul_right, hdd]
    field_simp
  have hb : bCoef ⟨pos, (1 / d) • (center - pos)⟩ ⟨center, r, mtl⟩ = -(2 * d) := by
    show 2 * dot (pos - center) ((1 / d) • (center - pos)) = -(2 * d)
    rw [Vec3.sub_swap pos center, dot_smul_right, dot_neg_left, hdd]
    field_simp
    ring
  have hc : cCoef ⟨pos, (1 / d) • (center - pos)⟩ ⟨center, r, mtl⟩ = d * d - r * r := by
    show dot (pos - center) (pos - center) - r * r = d * d - r * r
    rw [Vec3.sub_swap pos center, dot_neg_left, dot_neg_right, neg_neg, hdd]
  have hdisc : discrim ⟨pos, (1 / d) • (center - pos)⟩ ⟨center, r, mtl⟩ = (2 * r) * (2 * r) := by
    rw [discrim, ha, hb, hc]
    ring
  have hsq : Real.sqrt (discrim ⟨pos, (1 / d) • (center - pos)⟩ ⟨center, r, mtl⟩) = 2 * r := by
    rw [hdisc]
    exact sqrt_eval (by linarith) rfl
  have htn : tNear ⟨pos, (1 / d) • (center - pos)⟩ ⟨center, r, mtl⟩ = d - r := by
    rw [tNear, hb, hsq, ha]
    field_simp
    ring
  have hpos : 0 < d - r := by linarith
  have hcand : candT ⟨pos, (1 / d) • (center - pos)⟩ ⟨center, r, mtl⟩ = d - r := by
    rw [candT, htn, if_pos hpos]
  have hdnn : 0 ≤ discrim ⟨pos, (1 / d) • (center - pos)⟩ ⟨center, r, mtl⟩ := by
    rw [hdisc]
    exact mul_self_nonneg _
  have hbeats : beats ⟨pos, (1 / d) • (center - pos)⟩ ⟨center, r, mtl⟩ 1e30 :=
    (beats_iff ..).mpr ⟨hdnn, by rw [hcand]; exact hpos, by rw [hcand]; exact hsent⟩
  have hfold : [(⟨center, r, mtl⟩ : Sphere)].foldl
      (intersectStep ⟨pos, (1 / d) • (center - pos)⟩) (setSentinel h0, false) =
      (hitRecord ⟨pos, (1 / d) • (center - pos)⟩ ⟨center, r, mtl⟩
        (candT ⟨pos, (1 / d) • (center - pos)⟩ ⟨center, r, mtl⟩), true) := by
    rw [List.foldl_cons, intersectStep_yes _ (by simpa using hbeats), List.foldl_nil]
  constructor
  · rw [IntersectRay, hfold]
  · rw [IntersectRay, hfold]
    exact hcand

/-- Witness for the amended C9: origin at distance 5 aimed at a unit sphere
yields a hit at distance 4. -/
theorem intersectRay_aimed_center_witness :
    (0 : ℝ) ≤ 1 ∧ length ((⟨0, 0, 0⟩ : Vec3) - ⟨0, 0, 5⟩) = 5 ∧ (1 : ℝ) < 5 ∧
    (5 : ℝ) - 1 < 1e30 ∧
    ((IntersectRay [⟨⟨0, 0, 0⟩, 1, mtlA⟩] uninitHit
        ⟨⟨0, 0, 5⟩, ((1 / 5 : ℝ)) • ((⟨0, 0, 0⟩ : Vec3) - ⟨0, 0, 5⟩)⟩).1 = true ∧
     (IntersectRay [⟨⟨0, 0, 0⟩, 1, mtlA⟩] uninitHit
        ⟨⟨0, 0, 5⟩, ((1 / 5 : ℝ)) • ((⟨0, 0, 0⟩ : Vec3) - ⟨0, 0, 5⟩)⟩).2.t = 5 - 1) := by
  have hl : length ((⟨0, 0, 0⟩ : Vec3) - ⟨0, 0, 5⟩) = 5 := by
    rw [length]
    refine sqrt_eval (by norm_num) ?_
    norm_num [dot]
  exact ⟨by norm_num, hl, by norm_num, by norm_num,
    intersectRay_aimed_center ⟨0, 0, 0⟩ ⟨0, 0, 5⟩ 1 5 mtlA uninitHit (by norm_num) hl
      (by norm_num) (by norm_num)⟩

/-- Counterexample to C9 as stated: a unit-direction ray aimed at the
center of a unit sphere from distance 2e30 satisfies the premises of the
claim, yet IntersectRay reports no hit at all, because the candidate
distance 2e30 - 1 is not below the 1e30 sentinel. -/
theorem intersectRay_aimed_center_far_counterexample :
    length ((⟨0, 0, 0⟩ : Vec3) - ⟨0, 0, 2e30⟩) = 2e30 ∧
    ((1 / (2e30) : ℝ)) • ((⟨0, 0, 0⟩ : Vec3) - ⟨0, 0, 2e30⟩) = ⟨0, 0, -1⟩ ∧
    (IntersectRay [⟨⟨0, 0, 0⟩, 1, mtlA⟩] uninitHit
      ⟨⟨0, 0, 2e30⟩, ⟨0, 0, -1⟩⟩).1 = false := by
  refine ⟨?_, ?_, ?_⟩
  · rw [length]
    refine sqrt_eval (by norm_num) ?_
    norm_num [dot]
  · ext <;> norm_num
  · have hd : discrim ⟨⟨0, 0, 2e30⟩, ⟨0, 0, -1⟩⟩ (⟨⟨0, 0, 0⟩, 1, mtlA⟩ : Sphere) = 4 := by
      norm_num [discrim, bCoef, aCoef, cCoef, dot, mtlA]
    have htn : tNear ⟨⟨0, 0, 2e30⟩, ⟨0, 0, -1⟩⟩ (⟨⟨0, 0, 0⟩, 1, mtlA⟩ : Sphere) =
        2e30 - 1 := by
      rw [tNear, hd, sqrt_eval (by norm_num : (0:ℝ) ≤ 2) (by norm_num)]
      norm_num [bCoef, aCoef, dot]
    have hnb : ¬ beats ⟨⟨0, 0, 2e30⟩, ⟨0, 0, -1⟩⟩ (⟨⟨0, 0, 0⟩, 1, mtlA⟩ : Sphere) 1e30 := by
      intro hbt
      have := ((beats_iff ..).mp hbt).2.2
      rw [candT, htn, if_pos (by norm_num)] at this
      norm_num at this
    have hkeep := foldl_keep ⟨⟨0, 0, 2e30⟩, ⟨0, 0, -1⟩⟩
      [(⟨⟨0, 0, 0⟩, 1, mtlA⟩ : Sphere)] (setSentinel uninitHit) false
      (by
        intro s hs
        rw [List.mem_singleton] at hs
        subst hs
        simpa using hnb)
    simp [IntersectRay, hkeep]

end RT
